import Mathlib

/-!
Shallow embedding of the ccm reconciliation engine (`src/manager.rs`,
`src/collection.rs`, `src/calendar.rs`, `src/provider.rs`, `src/event.rs`,
`src/pre_resource/pre_calendar.rs`) and proofs about its notification
handling, bootstrap loading and event search.

Modelling conventions:
* GObject identity (reference-counted shared objects) is modelled by an
  index `ObjId` into an ever-growing list `St.objects`; allocating a new
  object appends to that list, in-place mutation is `List.set` at the
  object's index.  Child `ListStore`s live inside the owning object.
* The resource pool `HashMap<String, Resource>` is an association list
  with cons-insert and first-match lookup (`pool_insert` / `pool_get`),
  which has exactly the map semantics of `HashMap::insert` / `get`.
* `ListStore` mutation emits an `items-changed(position, removed, added)`
  delta; those are accumulated in `St.deltas`.
* The `deleted` signal subscriptions wired by `Collection::add_calendar`
  are kept in `St.subs` as (calendar id, collection id) pairs.
* Rust panics (`unwrap`, `expect`, `todo!`) make an operation return
  `none`; warnings relevant to the claims are accumulated in `St.log`
  (`info!`/`debug!` traces are not modelled).
* The SPARQL store is abstracted as `Store`: `resolve` is the composite
  `PreResource::from_uri` (which returns `Result<_, ()>`, i.e. an
  `Option` for the caller), `fts` is the full-text search query.
* `gdk::RGBA` is an opaque quadruple; its string parser (external
  library code) is passed in as a `parse` function wherever the source
  calls `.parse()` on a color string.
-/

/-- Opaque model of `gdk::RGBA`; channel payloads are irrelevant to the
reconciliation logic, only equality and parse success matter. -/
structure RGBA where
  red : Nat
  green : Nat
  blue : Nat
  alpha : Nat
deriving DecidableEq, Repr

/-- Object identity: index into `St.objects`.  Two live resources are the
same GObject exactly when they have the same `ObjId`. -/
abbrev ObjId := Nat

/-- Live resource objects (the `Resource` enum over `Provider`,
`Collection`, `Calendar`, `Event`), with each parent's child `ListStore`
stored inside the owning object, as in the source. -/
inductive Obj where
  | provider (uri name : String) (collections : List ObjId)
  | collection (uri provider_uri name : String) (calendars : List ObjId)
  | calendar (uri collection_uri name : String) (color : Option RGBA) (events : List ObjId)
  | event (uri calendar_uri name description : String)
deriving DecidableEq, Repr

/-- Warnings and errors the claims talk about (`warn!` / `error!` sites). -/
inductive LogMsg where
  | warn_unknown_event_type
  | warn_missing_parent (child parent : String)
  | warn_delete_not_found (uri : String)
  | warn_search_not_in_pool (uri : String)
  | warn_search_failed
  | warn_invalid_collection (calendar collection : String)
deriving DecidableEq, Repr

/-- One `items-changed(position, removed, added)` signal of a child
`ListStore`, tagged with the owning object. -/
structure Delta where
  owner : ObjId
  position : Nat
  removed : Nat
  added : Nat
deriving DecidableEq, Repr

/-- The manager's mutable state: allocated objects, the resource pool,
the root `CollectionsModel` list, emitted list deltas, wired `deleted`
signal subscriptions (calendar, collection), and the log. -/
structure St where
  objects : List Obj
  pool : List (String × ObjId)
  rootList : List ObjId
  deltas : List Delta
  subs : List (ObjId × ObjId)
  log : List LogMsg
deriving DecidableEq, Repr

/-- Staged snapshot of a provider (`PreProvider`). -/
structure PreProvider where
  uri : String
  name : String
deriving DecidableEq, Repr

/-- Staged snapshot of a collection (`PreCollection`). -/
structure PreCollection where
  uri : String
  provider_uri : String
  name : String
deriving DecidableEq, Repr

/-- Staged snapshot of a calendar (`PreCalendar`). -/
structure PreCalendar where
  uri : String
  collection_uri : String
  name : String
  color : RGBA
deriving DecidableEq, Repr

/-- Staged snapshot of an event (`PreEvent`). -/
structure PreEvent where
  uri : String
  calendar_uri : String
  name : String
  description : String
deriving DecidableEq, Repr

/-- The `PreResource` sum type. -/
inductive PreResource where
  | provider (p : PreProvider)
  | collection (c : PreCollection)
  | calendar (c : PreCalendar)
  | event (e : PreEvent)
deriving DecidableEq, Repr

/-- Notifier event kinds (`NotifierEventType`); `other` stands for the
wildcard arm of the partition match. -/
inductive NotifierEventType where
  | create
  | update
  | delete
  | other
deriving DecidableEq, Repr

/-- One notifier event: kind plus urn. -/
structure NotifierEvent where
  event_type : NotifierEventType
  urn : String
deriving DecidableEq, Repr

/-- Abstract view of the SPARQL store as seen by the engine:
`resolve` is `PreResource::from_uri` (a `Result<_, ()>`, hence `Option`),
`fts` is the full-text `fts:match` query used by `search_events`. -/
structure Store where
  resolve : String → Option PreResource
  fts : String → Except Unit (List String)

/-- The pool's `HashMap::insert`: the new binding shadows any previous
one for the same uri. -/
def pool_insert (pool : List (String × ObjId)) (uri : String) (oid : ObjId) :
    List (String × ObjId) :=
  (uri, oid) :: pool

/-- The pool's `HashMap::get`: first-match lookup. -/
def pool_get (pool : List (String × ObjId)) (uri : String) : Option ObjId :=
  (pool.find? (fun p => p.1 = uri)).map (fun p => p.2)

/-- Models `resource_pool.get(uri).cloned()`: the shared reference is the
object id together with the object's current value. -/
def lookup_resource (s : St) (uri : String) : Option (ObjId × Obj) :=
  match pool_get s.pool uri with
  | some oid => (s.objects[oid]?).map (fun o => (oid, o))
  | none => none

/-- The child `ListStore` held inside an object (a provider's
collections, a collection's calendars, a calendar's events). -/
def children : Obj → List ObjId
  | .provider _ _ collections => collections
  | .collection _ _ _ calendars => calendars
  | .calendar _ _ _ _ events => events
  | .event _ _ _ _ => []

/-- How many times object `x` appears across all parents' child lists. -/
def countOcc (objs : List Obj) (x : ObjId) : Nat :=
  (objs.map (fun o => (children o).count x)).sum

/-- Every id stored in any child list is a previously allocated object. -/
def ListsLT (objs : List Obj) (n : Nat) : Prop :=
  ∀ o ∈ objs, ∀ c ∈ children o, c < n

/-- Structural well-formedness of the object heap: child lists point at
allocated objects and no object sits in more than one child list. -/
def WFobjs (objs : List Obj) : Prop :=
  ListsLT objs objs.length ∧ ∀ x, countOcc objs x ≤ 1

/-- Structural well-formedness of a manager state. -/
def WFst (s : St) : Prop :=
  WFobjs s.objects

/-- Outcome of one `cursor.next()` call in `PreCalendar::from_uri`:
a glib error, no row, or a result row. -/
inductive CursorNext (α : Type) where
  | err
  | done
  | row (r : α)
deriving DecidableEq, Repr

/-- The three columns `?name ?color ?collection` of the
`PreCalendar::from_uri` point query, color still unparsed. -/
structure PreCalendarRow where
  name : String
  color : String
  collection : String
deriving DecidableEq, Repr

/-- `PreCalendar::from_uri` (`src/pre_resource/pre_calendar.rs`): glib
error or missing row is reported as `Err(())`; an unparsable color string
logs an error and is also reported as `Err(())`. -/
def PreCalendar.from_uri (parse : String → Option RGBA) (uri : String)
    (q : CursorNext PreCalendarRow) : Except Unit PreCalendar :=
  match q with
  | .err => .error ()
  | .done => .error ()
  | .row r =>
    match parse r.color with
    | none => .error ()
    | some color => .ok { uri := uri, collection_uri := r.collection, name := r.name, color := color }

/-- Urns of the `Create` events of a batch, in batch order (the partition
loop of `handle_notifier_events`). -/
def created_uris (events : List NotifierEvent) : List String :=
  events.filterMap (fun e =>
    match e.event_type with
    | .create => some e.urn
    | _ => none)

/-- Urns of the `Update` events of a batch, in batch order. -/
def updated_uris (events : List NotifierEvent) : List String :=
  events.filterMap (fun e =>
    match e.event_type with
    | .update => some e.urn
    | _ => none)

/-- Urns of the `Delete` events of a batch, in batch order. -/
def deleted_uris (events : List NotifierEvent) : List String :=
  events.filterMap (fun e =>
    match e.event_type with
    | .delete => some e.urn
    | _ => none)

/-- Warnings of the partition loop's wildcard arm (unknown event types). -/
def unknown_event_warnings (events : List NotifierEvent) : List LogMsg :=
  events.filterMap (fun e =>
    match e.event_type with
    | .other => some .warn_unknown_event_type
    | _ => none)

/-- Models `created_uris.into_iter().map(|uri| PreResource::from_uri(..).unwrap()).collect()`:
the first resolution failure panics (`none`). -/
def resolve_all (store : Store) (uris : List String) : Option (List PreResource) :=
  match uris with
  | [] => some []
  | u :: rest =>
    match store.resolve u with
    | none => none
    | some r =>
      match resolve_all store rest with
      | none => none
      | some rs => some (r :: rs)

/-- The "Create providers" pass: `Provider::new` then pool insert; no
parent lookup, no list attachment. -/
def create_providers (s : St) (rs : List PreResource) : St :=
  rs.foldl (fun s r =>
    match r with
    | .provider pre =>
      let pOid := s.objects.length
      let s := { s with objects := s.objects ++ [Obj.provider pre.uri pre.name []] }
      { s with pool := pool_insert s.pool pre.uri pOid }
    | _ => s) s

/-- The "Create collections" pass: look the declared provider up in the
pool; if it is a live `Provider`, construct the collection, append it to
the provider's list (one `items-changed` delta) and insert it into the
pool; otherwise warn and skip. -/
def create_collections (s : St) (rs : List PreResource) : St :=
  rs.foldl (fun s r =>
    match r with
    | .collection pre =>
      match lookup_resource s pre.provider_uri with
      | some (pOid, .provider puri pname cols) =>
        let cOid := s.objects.length
        let s := { s with objects := s.objects ++ [Obj.collection pre.uri pre.provider_uri pre.name []] }
        let s := { s with
          objects := s.objects.set pOid (.provider puri pname (cols ++ [cOid])),
          deltas := s.deltas ++ [Delta.mk pOid cols.length 0 1] }
        { s with pool := pool_insert s.pool pre.uri cOid }
      | _ => { s with log := s.log ++ [LogMsg.warn_missing_parent pre.uri pre.provider_uri] }
    | _ => s) s

/-- The "Create calendars" pass: as for collections, but
`Collection::add_calendar` additionally wires the calendar's `deleted`
signal to the collection (recorded in `subs`). -/
def create_calendars (s : St) (rs : List PreResource) : St :=
  rs.foldl (fun s r =>
    match r with
    | .calendar pre =>
      match lookup_resource s pre.collection_uri with
      | some (colOid, .collection curi cprov cname cals) =>
        let calOid := s.objects.length
        let s := { s with objects := s.objects ++ [Obj.calendar pre.uri pre.collection_uri pre.name (some pre.color) []] }
        let s := { s with
          objects := s.objects.set colOid (.collection curi cprov cname (cals ++ [calOid])),
          deltas := s.deltas ++ [Delta.mk colOid cals.length 0 1],
          subs := s.subs ++ [(calOid, colOid)] }
        { s with pool := pool_insert s.pool pre.uri calOid }
      | _ => { s with log := s.log ++ [LogMsg.warn_missing_parent pre.uri pre.collection_uri] }
    | _ => s) s

/-- The "Create events" pass: `Calendar::add_event` appends to the
calendar's events list. -/
def create_events (s : St) (rs : List PreResource) : St :=
  rs.foldl (fun s r =>
    match r with
    | .event pre =>
      match lookup_resource s pre.calendar_uri with
      | some (calOid, .calendar curi ccol cname ccolor evs) =>
        let eOid := s.objects.length
        let s := { s with objects := s.objects ++ [Obj.event pre.uri pre.calendar_uri pre.name pre.description] }
        let s := { s with
          objects := s.objects.set calOid (.calendar curi ccol cname ccolor (evs ++ [eOid])),
          deltas := s.deltas ++ [Delta.mk calOid evs.length 0 1] }
        { s with pool := pool_insert s.pool pre.uri eOid }
      | _ => { s with log := s.log ++ [LogMsg.warn_missing_parent pre.uri pre.calendar_uri] }
    | _ => s) s

/-- The update-collection loop: for each updated uri, clone the pooled
resource (`.unwrap()` — absence panics) and resolve a fresh snapshot
(`.unwrap()` — resolution failure panics). -/
def collect_update_events (store : Store) (s : St) (uris : List String) :
    Option (List (ObjId × PreResource)) :=
  match uris with
  | [] => some []
  | u :: rest =>
    match lookup_resource s u with
    | none => none
    | some (oid, _) =>
      match store.resolve u with
      | none => none
      | some pre =>
        match collect_update_events store s rest with
        | none => none
        | some ps => some ((oid, pre) :: ps)

/-- The update-apply loop.  Only Calendar update is implemented:
`Calendar::emit_updated` sets name and color in place on the shared
object; Event update is a silent no-op; every other kind combination is
`todo!()` (panic).  The dispatch is on the pooled object's kind, which no
phase changes. -/
def apply_update_events (s : St) (pairs : List (ObjId × PreResource)) : Option St :=
  match pairs with
  | [] => some s
  | (oid, pre) :: rest =>
    match s.objects[oid]?, pre with
    | some (.provider _ _ _), .provider _ => none
    | some (.collection _ _ _ _), .collection _ => none
    | some (.calendar u cu _ _ evs), .calendar p =>
      apply_update_events
        { s with objects := s.objects.set oid (.calendar u cu p.name (some p.color) evs) } rest
    | some (.event _ _ _ _), .event _ => apply_update_events s rest
    | _, _ => none

/-- The closure `Collection::add_calendar` connects to the calendar's
`deleted` signal: find the calendar in the collection's list by identity
(`expect` — panic when absent), remove it at that index, which emits one
`items-changed(index, 1, 0)` delta. -/
def run_delete_handler (s : St) (calOid colOid : ObjId) : Option St :=
  match s.objects[colOid]? with
  | some (.collection u p n cals) =>
    match cals.findIdx? (fun c => c = calOid) with
    | some idx =>
      some { s with
        objects := s.objects.set colOid (.collection u p n (cals.eraseIdx idx)),
        deltas := s.deltas ++ [Delta.mk colOid idx 1 0] }
    | none => none
  | _ => none

/-- Run the handlers subscribed to one calendar's `deleted` signal, in
connection order. -/
def run_handlers (s : St) (calOid : ObjId) (hs : List (ObjId × ObjId)) : Option St :=
  match hs with
  | [] => some s
  | h :: rest =>
    match run_delete_handler s calOid h.2 with
    | none => none
    | some s => run_handlers s calOid rest

/-- `Calendar::emit_deleted`: synchronously invoke every handler wired to
this calendar's `deleted` signal. -/
def emit_deleted (s : St) (calOid : ObjId) : Option St :=
  run_handlers s calOid (s.subs.filter (fun p => p.1 = calOid))

/-- The delete phase: for each deleted uri, look the resource up in the
pool (absence warns and continues); a Calendar emits its `deleted`
signal; Provider, Collection and Event deletion are `todo!()` (panic).
Note that no branch removes the uri from the pool. -/
def delete_phase (s : St) (uris : List String) : Option St :=
  match uris with
  | [] => some s
  | uri :: rest =>
    match lookup_resource s uri with
    | none => delete_phase { s with log := s.log ++ [LogMsg.warn_delete_not_found uri] } rest
    | some (oid, .calendar _ _ _ _ _) =>
      match emit_deleted s oid with
      | none => none
      | some s => delete_phase s rest
    | some (_, _) => none

/-- `handle_notifier_events` (`src/manager.rs`): partition the batch,
resolve and create (providers, then collections, then calendars, then
events), apply updates, then process deletes. -/
def handle_notifier_events (store : Store) (s : St) (events : List NotifierEvent) : Option St :=
  let s := { s with log := s.log ++ unknown_event_warnings events }
  match resolve_all store (created_uris events) with
  | none => none
  | some created_resources =>
    let s := create_providers s created_resources
    let s := create_collections s created_resources
    let s := create_calendars s created_resources
    let s := create_events s created_resources
    match collect_update_events store s (updated_uris events) with
    | none => none
    | some pairs =>
      match apply_update_events s pairs with
      | none => none
      | some s => delete_phase s (deleted_uris events)

/-- One row of the bootstrap calendar query
`SELECT ?uri ?collection_uri ?name ?color` (color still unparsed). -/
structure CalendarQueryRow where
  uri : String
  collection_uri : String
  name : String
  color : String
deriving DecidableEq, Repr

/-- `retrieve_calendars` (`src/manager.rs` bootstrap): per row, look the
declared collection up in the pool (absence warns and skips the row),
then `Calendar::new` parses the color with
`.expect("Color should be a valid color string")` — an unparsable color
panics; otherwise attach via `Collection::add_calendar` and insert into
the pool. -/
def retrieve_calendars (parse : String → Option RGBA) (s : St)
    (rows : List CalendarQueryRow) : Option St :=
  match rows with
  | [] => some s
  | row :: rest =>
    match lookup_resource s row.collection_uri with
    | some (colOid, .collection curi cprov cname cals) =>
      match parse row.color with
      | none => none
      | some color =>
        let calOid := s.objects.length
        let s := { s with objects := s.objects ++ [Obj.calendar row.uri row.collection_uri row.name (some color) []] }
        let s := { s with
          objects := s.objects.set colOid (.collection curi cprov cname (cals ++ [calOid])),
          deltas := s.deltas ++ [Delta.mk colOid cals.length 0 1],
          subs := s.subs ++ [(calOid, colOid)] }
        retrieve_calendars parse { s with pool := pool_insert s.pool row.uri calOid } rest
    | _ => retrieve_calendars parse { s with log := s.log ++ [LogMsg.warn_invalid_collection row.uri row.collection_uri] } rest

/-- Result of `Manager::search_events`: whether a store query was issued,
the returned `ListStore` of events (as object ids), and the warnings. -/
structure SearchOutcome where
  queried : Bool
  results : List ObjId
  warnings : List LogMsg
deriving DecidableEq, Repr

/-- The result-accumulation loop of `Manager::search_events`: walk the
cursor's uris, appending each uri that resolves in the pool to an `Event`
to the result `ListStore`, warning on the rest. -/
def search_loop (s : St) (uris : List String) (acc : List ObjId × List LogMsg) :
    List ObjId × List LogMsg :=
  match uris with
  | [] => acc
  | uri :: rest =>
    match lookup_resource s uri with
    | some (oid, .event _ _ _ _) => search_loop s rest (acc.1 ++ [oid], acc.2)
    | _ => search_loop s rest (acc.1, acc.2 ++ [LogMsg.warn_search_not_in_pool uri])

/-- `Manager::search_events` (`src/manager.rs`): an empty query returns
an empty list without touching the store; otherwise run the full-text
query (an execution error warns and returns an empty list), then keep
exactly the returned uris that resolve in the pool to an `Event`,
warning on and skipping the rest. -/
def search_events (s : St) (fts : String → Except Unit (List String))
    (query : String) : SearchOutcome :=
  if query = "" then
    { queried := false, results := [], warnings := [] }
  else
    match fts query with
    | .error _ => { queried := true, results := [], warnings := [LogMsg.warn_search_failed] }
    | .ok uris =>
      let acc := search_loop s uris ([], [])
      { queried := true, results := acc.1, warnings := acc.2 }

/-- The per-uri body of the search loop: the uris kept are exactly those
resolving in the pool to an `Event`. -/
def resolve_event_in_pool (s : St) (uri : String) : Option ObjId :=
  match lookup_resource s uri with
  | some (oid, .event _ _ _ _) => some oid
  | _ => none

/-- The empty manager state (freshly constructed manager before any
bootstrap row arrives). -/
def st_empty : St :=
  { objects := [], pool := [], rootList := [], deltas := [], subs := [], log := [] }

/-- A store in which nothing resolves. -/
def store_empty : Store := { resolve := fun _ => none, fts := fun _ => .error () }

/-- Fixture uri of a collection. -/
def collU : String := "collection-1"

/-- Fixture uri of a calendar. -/
def calU : String := "calendar-1"

/-- A well-formed state with one collection holding one calendar, the
calendar's `deleted` signal wired to the collection. -/
def st_pair : St :=
  { objects := [Obj.collection collU "provider-0" "Personal" [1],
                Obj.calendar calU collU "Home" (some ⟨1, 2, 3, 4⟩) []],
    pool := [(collU, 0), (calU, 1)],
    rootList := [0], deltas := [], subs := [(1, 0)], log := [] }

/-- Concrete color parser standing in for `RGBA::parse`: recognises one
well-formed encoding and rejects everything else. -/
def parseC : String → Option RGBA :=
  fun str => if str = "#ffffff" then some ⟨255, 255, 255, 255⟩ else none

/-- State after processing the batch `[Delete calU]` from `st_pair`. -/
def st_pair_after_delete : St :=
  (handle_notifier_events store_empty st_pair [⟨.delete, calU⟩]).getD st_empty

/-- A store resolving a provider uri and a collection uri declaring that
provider as parent. -/
def store_ab : Store :=
  { resolve := fun u =>
      if u = "prov-A" then some (.provider ⟨"prov-A", "Provider A"⟩)
      else if u = "coll-B" then some (.collection ⟨"coll-B", "prov-A", "Collection B"⟩)
      else none,
    fts := fun _ => .error () }

/-- State after processing the batch `[Create prov-A]` from the empty
state. -/
def st_after_create_provider : St :=
  (handle_notifier_events store_ab st_empty [⟨.create, "prov-A"⟩]).getD st_empty

/-- A calendar row whose color string does not parse. -/
def bad_row : PreCalendarRow :=
  { name := "Bad", color := "not-a-color", collection := collU }

/-- A store in which `bad-cal` resolves through `PreCalendar.from_uri` on
`bad_row` (so resolution fails on the color parse) while `prov-A`
resolves fine. -/
def store_bad : Store :=
  { resolve := fun u =>
      if u = "bad-cal" then
        ((PreCalendar.from_uri parseC "bad-cal" (.row bad_row)).toOption).map PreResource.calendar
      else if u = "prov-A" then some (.provider ⟨"prov-A", "Provider A"⟩)
      else none,
    fts := fun _ => .error () }

/-- A state holding one provider. -/
def st_prov : St :=
  { objects := [Obj.provider "prov-A" "Provider A" []], pool := [("prov-A", 0)],
    rootList := [], deltas := [], subs := [], log := [] }

/-- A store for the dropped-child scenario: a calendar whose collection
does not exist yet, and that collection (child of `prov-A`). -/
def store_orphan : Store :=
  { resolve := fun u =>
      if u = "cal-C" then some (.calendar ⟨"cal-C", "coll-B", "Cal C", ⟨1, 2, 3, 4⟩⟩)
      else if u = "coll-B" then some (.collection ⟨"coll-B", "prov-A", "Collection B"⟩)
      else none,
    fts := fun _ => .error () }

/-- A store resolving `calU` to a fresh calendar snapshot with a new name
and color. -/
def store_upd : Store :=
  { resolve := fun u =>
      if u = calU then some (.calendar ⟨calU, collU, "Renamed", ⟨9, 9, 9, 9⟩⟩)
      else none,
    fts := fun _ => .error () }

/-- A state holding one event in the pool. -/
def st_event : St :=
  { objects := [Obj.event "event-1" "cal-0" "Standup" "Daily"], pool := [("event-1", 0)],
    rootList := [], deltas := [], subs := [], log := [] }

/-- A full-text index matching two uris for the query "standup", one of
which is not in the pool. -/
def fts_hit : String → Except Unit (List String) :=
  fun q => if q = "standup" then .ok ["event-1", "event-missing"] else .ok []

/-- A bootstrap calendar row with an unparsable color and a live parent. -/
def row_badcolor : CalendarQueryRow :=
  { uri := "cal-X", collection_uri := collU, name := "X", color := "bogus" }

/-- A bootstrap calendar row pointing at an absent collection. -/
def row_orphan : CalendarQueryRow :=
  { uri := "cal-Y", collection_uri := "nope", name := "Y", color := "#ffffff" }

theorem pool_get_insert_self (pool : List (String × ObjId)) (uri : String) (oid : ObjId) :
    pool_get (pool_insert pool uri oid) uri = some oid := by
  simp [pool_get, pool_insert, List.find?]

theorem pool_get_insert_ne (pool : List (String × ObjId)) (uri uri' : String) (oid : ObjId)
    (h : uri' ≠ uri) : pool_get (pool_insert pool uri oid) uri' = pool_get pool uri' := by
  simp only [pool_get, pool_insert, List.find?]
  have : (decide (uri = uri')) = false := by
    simp only [decide_eq_false_iff_not]
    exact fun hc => h hc.symm
  simp [this]

theorem lookup_resource_some {s : St} {uri : String} {oid : ObjId} {o : Obj}
    (h : lookup_resource s uri = some (oid, o)) :
    pool_get s.pool uri = some oid ∧ s.objects[oid]? = some o := by
  unfold lookup_resource at h
  cases hp : pool_get s.pool uri with
  | none => simp [hp] at h
  | some oid2 =>
    simp only [hp, Option.map_eq_some'] at h
    obtain ⟨o2, ho2, heq⟩ := h
    simp only [Prod.mk.injEq] at heq
    obtain ⟨h1, h2⟩ := heq
    subst h1
    subst h2
    exact ⟨rfl, ho2⟩

theorem countOcc_nil (x : ObjId) : countOcc [] x = 0 := rfl

theorem countOcc_cons (o : Obj) (objs : List Obj) (x : ObjId) :
    countOcc (o :: objs) x = (children o).count x + countOcc objs x := by
  simp [countOcc]

theorem countOcc_append_one (objs : List Obj) (o : Obj) (x : ObjId) :
    countOcc (objs ++ [o]) x = countOcc objs x + (children o).count x := by
  simp [countOcc]

theorem countOcc_set (objs : List Obj) (i : Nat) (o o' : Obj) (x : ObjId)
    (h : objs[i]? = some o) :
    countOcc (objs.set i o') x + (children o).count x
      = countOcc objs x + (children o').count x := by
  induction objs generalizing i with
  | nil => simp at h
  | cons a l ih =>
    cases i with
    | zero =>
      simp only [List.getElem?_cons_zero, Option.some.injEq] at h
      subst h
      simp only [List.set_cons_zero, countOcc_cons]
      omega
    | succ n =>
      simp only [List.getElem?_cons_succ] at h
      have := ih n h
      simp only [List.set_cons_succ, countOcc_cons]
      omega

theorem countOcc_zero_of_lt {objs : List Obj} {n : Nat} (h : ListsLT objs n)
    {x : ObjId} (hx : n ≤ x) : countOcc objs x = 0 := by
  induction objs with
  | nil => rfl
  | cons a l ih =>
    have ha : (children a).count x = 0 := by
      rw [List.count_eq_zero]
      intro hc
      exact absurd (h a (by simp) x hc) (Nat.not_lt.mpr hx)
    have hl : ListsLT l n := fun o ho c hc => h o (by simp [ho]) c hc
    rw [countOcc_cons, ha, ih hl]

theorem listsLT_mono {objs : List Obj} {n m : Nat} (h : ListsLT objs n) (hnm : n ≤ m) :
    ListsLT objs m :=
  fun o ho c hc => lt_of_lt_of_le (h o ho c hc) hnm

theorem listsLT_append_one {objs : List Obj} {n m : Nat} {o : Obj} (h : ListsLT objs n)
    (ho : ∀ c ∈ children o, c < m) (hnm : n ≤ m) : ListsLT (objs ++ [o]) m := by
  intro o2 ho2 c hc
  rcases List.mem_append.1 ho2 with h2 | h2
  · exact lt_of_lt_of_le (h o2 h2 c hc) hnm
  · simp only [List.mem_singleton] at h2
    subst h2
    exact ho c hc

theorem listsLT_set {objs : List Obj} {n m : Nat} {i : Nat} {o' : Obj} (h : ListsLT objs n)
    (ho : ∀ c ∈ children o', c < m) (hnm : n ≤ m) : ListsLT (objs.set i o') m := by
  intro o2 ho2 c hc
  rcases List.mem_or_eq_of_mem_set ho2 with h2 | h2
  · exact lt_of_lt_of_le (h o2 h2 c hc) hnm
  · subst h2
    exact ho c hc

theorem wfobjs_append_empty {objs : List Obj} {no : Obj} (h : WFobjs objs)
    (hno : children no = []) : WFobjs (objs ++ [no]) := by
  constructor
  · rw [List.length_append]
    exact listsLT_append_one h.1 (by simp [hno]) (by omega)
  · intro x
    rw [countOcc_append_one, hno, List.count_nil]
    exact h.2 x

theorem wfobjs_attach {objs : List Obj} {pOid : Nat} {po po' no : Obj}
    (h : WFobjs objs) (hp : objs[pOid]? = some po) (hno : children no = [])
    (hpo : children po' = children po ++ [objs.length]) :
    WFobjs ((objs ++ [no]).set pOid po') := by
  obtain ⟨hlt, hgs⟩ := List.getElem?_eq_some.1 hp
  have hmem : po ∈ objs := hgs ▸ List.getElem_mem hlt
  have hpA : (objs ++ [no])[pOid]? = some po := by
    rw [List.getElem?_append]
    simp [hlt, hp]
  constructor
  · rw [List.length_set, List.length_append, List.length_singleton]
    refine listsLT_set ?_ ?_ (le_refl _)
    · exact listsLT_append_one h.1 (by simp [hno]) (by omega)
    · intro c hc
      rw [hpo] at hc
      rcases List.mem_append.1 hc with h2 | h2
      · have h3 : c < objs.length := h.1 po hmem c h2
        exact Nat.lt_succ_of_lt h3
      · simp only [List.mem_singleton] at h2
        exact h2 ▸ Nat.lt_succ_self _
  · intro x
    have hset := countOcc_set (objs ++ [no]) pOid po po' x hpA
    have hA : countOcc (objs ++ [no]) x = countOcc objs x := by
      rw [countOcc_append_one, hno]
      simp
    have hcnt : (children po').count x
        = (children po).count x + ([objs.length] : List ObjId).count x := by
      rw [hpo, List.count_append]
    by_cases hx : x = objs.length
    · have h0 : countOcc objs x = 0 := countOcc_zero_of_lt h.1 (le_of_eq hx.symm)
      have h1 : ([objs.length] : List ObjId).count x = 1 := by
        simp [List.count_singleton, hx]
      omega
    · have h1 : ([objs.length] : List ObjId).count x = 0 := by
        simp [List.count_singleton, Ne.symm hx]
      have h2 := h.2 x
      omega

theorem wfobjs_set_same {objs : List Obj} {i : Nat} {o o' : Obj} (h : WFobjs objs)
    (hi : objs[i]? = some o) (hsame : children o' = children o) :
    WFobjs (objs.set i o') := by
  obtain ⟨hlt, hgs⟩ := List.getElem?_eq_some.1 hi
  have hmem : o ∈ objs := hgs ▸ List.getElem_mem hlt
  constructor
  · rw [List.length_set]
    apply listsLT_set h.1 _ (le_refl _)
    rw [hsame]
    exact h.1 o hmem
  · intro x
    have hset := countOcc_set objs i o o' x hi
    rw [hsame] at hset
    have := h.2 x
    omega

theorem foldl_wf {α : Type} {f : St → α → St} (hf : ∀ s a, WFst s → WFst (f s a)) :
    ∀ (l : List α) (s : St), WFst s → WFst (l.foldl f s) := by
  intro l
  induction l with
  | nil => intro s h; simpa using h
  | cons a l ih =>
    intro s h
    rw [List.foldl_cons]
    exact ih _ (hf s a h)

theorem create_providers_wf (rs : List PreResource) (s : St) (h : WFst s) :
    WFst (create_providers s rs) := by
  unfold create_providers
  refine foldl_wf ?_ rs s h
  intro s r hs
  cases r with
  | provider pre => exact wfobjs_append_empty hs rfl
  | collection pre => exact hs
  | calendar pre => exact hs
  | event pre => exact hs

theorem create_collections_wf (rs : List PreResource) (s : St) (h : WFst s) :
    WFst (create_collections s rs) := by
  unfold create_collections
  refine foldl_wf ?_ rs s h
  intro s r hs
  cases r with
  | provider pre => exact hs
  | calendar pre => exact hs
  | event pre => exact hs
  | collection pre =>
    simp only
    cases hl : lookup_resource s pre.provider_uri with
    | none => exact hs
    | some p =>
      obtain ⟨pOid, po⟩ := p
      cases po with
      | provider puri pname cols =>
        exact wfobjs_attach hs (lookup_resource_some hl).2 rfl rfl
      | collection _ _ _ _ => exact hs
      | calendar _ _ _ _ _ => exact hs
      | event _ _ _ _ => exact hs

theorem create_calendars_wf (rs : List PreResource) (s : St) (h : WFst s) :
    WFst (create_calendars s rs) := by
  unfold create_calendars
  refine foldl_wf ?_ rs s h
  intro s r hs
  cases r with
  | provider pre => exact hs
  | collection pre => exact hs
  | event pre => exact hs
  | calendar pre =>
    simp only
    cases hl : lookup_resource s pre.collection_uri with
    | none => exact hs
    | some p =>
      obtain ⟨colOid, co⟩ := p
      cases co with
      | collection curi cprov cname cals =>
        exact wfobjs_attach hs (lookup_resource_some hl).2 rfl rfl
      | provider _ _ _ => exact hs
      | calendar _ _ _ _ _ => exact hs
      | event _ _ _ _ => exact hs

theorem create_events_wf (rs : List PreResource) (s : St) (h : WFst s) :
    WFst (create_events s rs) := by
  unfold create_events
  refine foldl_wf ?_ rs s h
  intro s r hs
  cases r with
  | provider pre => exact hs
  | collection pre => exact hs
  | calendar pre => exact hs
  | event pre =>
    simp only
    cases hl : lookup_resource s pre.calendar_uri with
    | none => exact hs
    | some p =>
      obtain ⟨calOid, co⟩ := p
      cases co with
      | calendar curi ccol cname ccolor evs =>
        exact wfobjs_attach hs (lookup_resource_some hl).2 rfl rfl
      | provider _ _ _ => exact hs
      | collection _ _ _ _ => exact hs
      | event _ _ _ _ => exact hs

theorem apply_update_events_wf :
    ∀ (pairs : List (ObjId × PreResource)) (s s' : St),
      apply_update_events s pairs = some s' → WFst s → WFst s' := by
  intro pairs
  induction pairs with
  | nil =>
    intro s s' h hs
    simp only [apply_update_events, Option.some.injEq] at h
    exact h ▸ hs
  | cons p rest ih =>
    intro s s' h hs
    unfold apply_update_events at h
    split at h
    · exact absurd h (by simp)
    · exact absurd h (by simp)
    · rename_i oid pre u cu evs pcal ho hpre
      exact ih _ _ h (wfobjs_set_same hs ho rfl)
    · exact ih _ _ h hs
    · exact absurd h (by simp)

theorem deleted_uris_of_no_deletes {events : List NotifierEvent}
    (h : ∀ e ∈ events, e.event_type ≠ .delete) : deleted_uris events = [] := by
  unfold deleted_uris
  rw [List.filterMap_eq_nil_iff]
  intro e he
  cases het : e.event_type
  · rfl
  · rfl
  · exact absurd het (h e he)
  · rfl

theorem created_uris_of_all_deletes {events : List NotifierEvent}
    (h : ∀ e ∈ events, e.event_type = .delete) : created_uris events = [] := by
  unfold created_uris
  rw [List.filterMap_eq_nil_iff]
  intro e he
  rw [h e he]

theorem updated_uris_of_all_deletes {events : List NotifierEvent}
    (h : ∀ e ∈ events, e.event_type = .delete) : updated_uris events = [] := by
  unfold updated_uris
  rw [List.filterMap_eq_nil_iff]
  intro e he
  rw [h e he]

theorem handle_wf_no_deletes {store : Store} {s s' : St} {events : List NotifierEvent}
    (hwf : WFst s) (hnd : ∀ e ∈ events, e.event_type ≠ .delete)
    (h : handle_notifier_events store s events = some s') : WFst s' := by
  unfold handle_notifier_events at h
  rw [deleted_uris_of_no_deletes hnd] at h
  cases hres : resolve_all store (created_uris events) with
  | none => rw [hres] at h; exact absurd h (by simp)
  | some rs =>
    rw [hres] at h
    simp only at h
    have hwf1 : WFst (create_events (create_calendars (create_collections (create_providers
        { s with log := s.log ++ unknown_event_warnings events } rs) rs) rs) rs) :=
      create_events_wf _ _ (create_calendars_wf _ _ (create_collections_wf _ _
        (create_providers_wf _ _ hwf)))
    cases hcol : collect_update_events store (create_events (create_calendars
        (create_collections (create_providers
          { s with log := s.log ++ unknown_event_warnings events } rs) rs) rs) rs)
        (updated_uris events) with
    | none => rw [hcol] at h; exact absurd h (by simp)
    | some pairs =>
      rw [hcol] at h
      simp only at h
      cases happ : apply_update_events (create_events (create_calendars
          (create_collections (create_providers
            { s with log := s.log ++ unknown_event_warnings events } rs) rs) rs) rs) pairs with
      | none => rw [happ] at h; exact absurd h (by simp)
      | some s2 =>
        rw [happ] at h
        simp only [delete_phase, Option.some.injEq] at h
        subst h
        exact apply_update_events_wf _ _ _ happ hwf1

theorem run_delete_handler_pool {s s' : St} {a b : ObjId}
    (h : run_delete_handler s a b = some s') : s'.pool = s.pool := by
  unfold run_delete_handler at h
  split at h
  · split at h
    · simp only [Option.some.injEq] at h
      subst h
      rfl
    · exact absurd h (by simp)
  · exact absurd h (by simp)

theorem run_handlers_pool {a : ObjId} :
    ∀ (hs : List (ObjId × ObjId)) (s s' : St),
      run_handlers s a hs = some s' → s'.pool = s.pool := by
  intro hs
  induction hs with
  | nil =>
    intro s s' h
    simp only [run_handlers, Option.some.injEq] at h
    subst h
    rfl
  | cons p rest ih =>
    intro s s' h
    unfold run_handlers at h
    cases hrd : run_delete_handler s a p.2 with
    | none => rw [hrd] at h; exact absurd h (by simp)
    | some s2 =>
      rw [hrd] at h
      exact (ih s2 s' h).trans (run_delete_handler_pool hrd)

theorem emit_deleted_pool {s s' : St} {a : ObjId}
    (h : emit_deleted s a = some s') : s'.pool = s.pool :=
  run_handlers_pool _ _ _ h

theorem delete_phase_pool :
    ∀ (uris : List String) (s s' : St),
      delete_phase s uris = some s' → s'.pool = s.pool := by
  intro uris
  induction uris with
  | nil =>
    intro s s' h
    simp only [delete_phase, Option.some.injEq] at h
    subst h
    rfl
  | cons u rest ih =>
    intro s s' h
    unfold delete_phase at h
    cases hl : lookup_resource s u with
    | none =>
      rw [hl] at h
      simp only at h
      have h2 := ih _ _ h
      exact h2
    | some p =>
      rw [hl] at h
      obtain ⟨oid, o⟩ := p
      cases o with
      | provider _ _ _ => simp only at h; exact absurd h (by simp)
      | collection _ _ _ _ => simp only at h; exact absurd h (by simp)
      | event _ _ _ _ => simp only at h; exact absurd h (by simp)
      | calendar _ _ _ _ _ =>
        simp only at h
        cases hed : emit_deleted s oid with
        | none => rw [hed] at h; simp only at h; exact absurd h (by simp)
        | some s2 =>
          rw [hed] at h
          simp only at h
          exact (ih _ _ h).trans (emit_deleted_pool hed)

theorem handle_all_deletes_pool {store : Store} {s s' : St} {events : List NotifierEvent}
    (hdel : ∀ e ∈ events, e.event_type = .delete)
    (h : handle_notifier_events store s events = some s') : s'.pool = s.pool := by
  unfold handle_notifier_events at h
  rw [created_uris_of_all_deletes hdel, updated_uris_of_all_deletes hdel] at h
  simp only [resolve_all, collect_update_events] at h
  simp only [create_providers, create_collections, create_calendars, create_events,
    List.foldl_nil] at h
  simp only [apply_update_events] at h
  have h2 := delete_phase_pool _ _ _ h
  exact h2

theorem wf_st_empty : WFst st_empty :=
  ⟨fun o ho _ _ => absurd ho (List.not_mem_nil o), fun _ => Nat.zero_le 1⟩

theorem resolve_all_none {store : Store} {uris : List String} {u : String}
    (hmem : u ∈ uris) (hfail : store.resolve u = none) : resolve_all store uris = none := by
  induction uris with
  | nil => cases hmem
  | cons a rest ih =>
    unfold resolve_all
    rcases List.mem_cons.1 hmem with h | h
    · subst h
      rw [hfail]
    · cases hr : store.resolve a with
      | none => rfl
      | some r => rw [ih h]

/-- C1: processing `[Delete calU]` from a well-formed two-object state
leaves the pool lookup for `calU` still answering (`some 1`), refuting
"after the batch is processed, a pool lookup for that id returns
nothing" — the delete phase never removes ids from the pool. -/
theorem c1_counterexample :
    (handle_notifier_events store_empty st_pair [⟨.delete, calU⟩]).map
      (fun s => pool_get s.pool calU) = some (some 1) := by decide

/-- C1 (amended): the delete phase never touches the pool: a batch made
only of Delete notifications leaves the pool mapping — and hence every
pool lookup — exactly as it was; a deleted Calendar is only detached from
its parent's child list via its `deleted` signal. -/
theorem c1_delete_leaves_pool_unchanged {store : Store} {s s' : St}
    {events : List NotifierEvent}
    (hdel : ∀ e ∈ events, e.event_type = .delete)
    (h : handle_notifier_events store s events = some s') :
    s'.pool = s.pool :=
  handle_all_deletes_pool hdel h

/-- C1 witness: the amended statement evaluated on the concrete
two-object state and the batch `[Delete calU]`. -/
theorem c1_witness : st_pair_after_delete.pool = st_pair.pool :=
  @c1_delete_leaves_pool_unchanged store_empty st_pair st_pair_after_delete
    [⟨.delete, calU⟩] (by decide) rfl

/-- C2: from the invariant-satisfying state `st_pair` (the calendar,
object 1, appears exactly once in its collection's child list), the batch
`[Delete calU]` produces a state in which object 1 is still in the pool
but appears in zero child lists — an orphan, refuting "every Resource in
the pool ... appears in exactly one ancestor's child list". -/
theorem c2_counterexample :
    countOcc st_pair.objects 1 = 1 ∧
    (handle_notifier_events store_empty st_pair [⟨.delete, calU⟩]).map
      (fun s => (pool_get s.pool calU, countOcc s.objects 1)) = some (some 1, 0) := by decide

/-- C2 (amended): after successfully processing a batch containing no
Delete notifications (duplicate Creates for the same id included), every
Resource in the pool appears in at most one ancestor's child list — no
duplicate entries; Delete notifications however orphan the resource: it
stays in the pool while leaving its parent's list. -/
theorem c2_no_duplicate_attachment {store : Store} {s : St}
    {events : List NotifierEvent} {s' : St}
    (hwf : WFst s) (hnd : ∀ e ∈ events, e.event_type ≠ .delete)
    (h : handle_notifier_events store s events = some s') :
    ∀ uri oid, pool_get s'.pool uri = some oid → countOcc s'.objects oid ≤ 1 :=
  fun _ oid _ => (handle_wf_no_deletes hwf hnd h).2 oid

/-- C2 witness: the amended statement evaluated on the empty state and
the batch `[Create prov-A]`. -/
theorem c2_witness : countOcc st_after_create_provider.objects 0 ≤ 1 :=
  @c2_no_duplicate_attachment store_ab st_empty [⟨.create, "prov-A"⟩]
    st_after_create_provider wf_st_empty (by decide) rfl "prov-A" 0 rfl

/-- C3: a batch holding one Update for an id absent from the pool makes
`handle_notifier_events` panic (`.unwrap()` on the pool lookup), refuting
"skips that item with a warning and continues with the rest of the
batch". -/
theorem c3_counterexample :
    handle_notifier_events store_empty st_empty [⟨.update, "res-U"⟩] = none := by decide

/-- C3 (amended): an Update notification whose id is absent from the pool
panics (`unwrap` of the pool lookup) and aborts the whole batch; no
warning is logged, and no create is synthesized. -/
theorem c3_update_absent_panics (store : Store) (s : St) (uri : String)
    (habs : pool_get s.pool uri = none) :
    handle_notifier_events store s [⟨.update, uri⟩] = none := by
  unfold handle_notifier_events
  simp only [created_uris, updated_uris, deleted_uris, unknown_event_warnings,
    List.filterMap_cons, List.filterMap_nil]
  simp only [resolve_all, create_providers, create_collections, create_calendars, create_events,
    List.foldl_nil]
  simp only [collect_update_events, lookup_resource, habs]

/-- C3 witness: the amended statement evaluated on the empty state. -/
theorem c3_witness : handle_notifier_events store_empty st_empty [⟨.update, "res-U"⟩] = none :=
  c3_update_absent_panics store_empty st_empty "res-U" rfl

/-- C4: in `store_bad`, uri `bad-cal` resolves through
`PreCalendar.from_uri` on a row whose color does not parse, so resolution
fails; the batch `[Create bad-cal, Create prov-A]` then panics as a whole
(`.unwrap()` on the resolution), so the perfectly resolvable `prov-A` is
never processed — refuting "that item is skipped with a logged error and
the remainder of the batch is still processed". -/
theorem c4_counterexample :
    handle_notifier_events store_bad st_pair [⟨.create, "bad-cal"⟩, ⟨.create, "prov-A"⟩] = none
    ∧ PreCalendar.from_uri parseC "bad-cal" (.row bad_row) = .error () :=
  ⟨by decide, rfl⟩

/-- C4 (amended): a Create notification whose id fails to resolve (no
rows, or a scalar such as a color failing to parse inside
`PreResource::from_uri`) panics and aborts the entire batch — no item of
the batch is processed. -/
theorem c4_resolution_failure_aborts_batch (store : Store) (s : St)
    (events : List NotifierEvent) (uri : String)
    (hmem : uri ∈ created_uris events) (hfail : store.resolve uri = none) :
    handle_notifier_events store s events = none := by
  unfold handle_notifier_events
  rw [resolve_all_none hmem hfail]

/-- C4 witness: the amended statement evaluated on the concrete store in
which `bad-cal` fails to resolve because of its color string. -/
theorem c4_witness :
    handle_notifier_events store_bad st_pair [⟨.create, "bad-cal"⟩, ⟨.create, "prov-A"⟩] = none :=
  c4_resolution_failure_aborts_batch store_bad st_pair
    [⟨.create, "bad-cal"⟩, ⟨.create, "prov-A"⟩] "bad-cal" (by decide) rfl

/-- C5: creates are processed by ancestor depth (providers, collections,
calendars, events), so a batch `[Create child, Create parent]` with the
child first in batch order still creates the parent provider first and
attaches the child collection to it exactly once: the parent's child list
is exactly the one-element list holding the new collection. -/
theorem c5_parent_kind_before_child_kind (store : Store) (s : St) (cU pU cnm pnm : String)
    (hcres : store.resolve cU = some (.collection ⟨cU, pU, cnm⟩))
    (hpres : store.resolve pU = some (.provider ⟨pU, pnm⟩))
    (hne : cU ≠ pU) :
    ∃ s', handle_notifier_events store s [⟨.create, cU⟩, ⟨.create, pU⟩] = some s'
      ∧ pool_get s'.pool pU = some s.objects.length
      ∧ pool_get s'.pool cU = some (s.objects.length + 1)
      ∧ s'.objects[s.objects.length]? = some (.provider pU pnm [s.objects.length + 1]) := by
  unfold handle_notifier_events
  simp only [created_uris, updated_uris, deleted_uris, unknown_event_warnings,
    List.filterMap_cons, List.filterMap_nil]
  simp only [resolve_all, hcres, hpres]
  simp only [create_providers, create_collections, create_calendars, create_events,
    List.foldl_cons, List.foldl_nil]
  have hlook : lookup_resource
      { objects := s.objects ++ [Obj.provider pU pnm []],
        pool := pool_insert s.pool pU s.objects.length,
        rootList := s.rootList, deltas := s.deltas, subs := s.subs, log := s.log ++ [] } pU
      = some (s.objects.length, Obj.provider pU pnm []) := by
    unfold lookup_resource
    simp only [pool_get_insert_self, List.getElem?_concat_length, Option.map_some']
  rw [hlook]
  simp only [collect_update_events, apply_update_events, delete_phase]
  refine ⟨_, rfl, ?_, ?_, ?_⟩
  · rw [pool_get_insert_ne _ _ _ _ (Ne.symm hne), pool_get_insert_self]
  · rw [pool_get_insert_self]
    simp [List.length_append]
  · rw [List.getElem?_set]
    simp [List.length_append]

/-- C5 witness: the statement evaluated on the empty state with the batch
`[Create coll-B, Create prov-A]` against `store_ab`. -/
theorem c5_witness :
    ∃ s', handle_notifier_events store_ab st_empty
        [⟨.create, "coll-B"⟩, ⟨.create, "prov-A"⟩] = some s'
      ∧ pool_get s'.pool "prov-A" = some st_empty.objects.length
      ∧ pool_get s'.pool "coll-B" = some (st_empty.objects.length + 1)
      ∧ s'.objects[st_empty.objects.length]? =
          some (.provider "prov-A" "Provider A" [st_empty.objects.length + 1]) :=
  c5_parent_kind_before_child_kind store_ab st_empty "coll-B" "prov-A"
    "Collection B" "Provider A" rfl rfl (by decide)

/-- C6: a Create whose resolved parent id is absent from the pool is
skipped with a warning and leaves objects, pool, deltas, subscriptions
and root list untouched; a later batch that creates the parent (here the
collection under a live provider) still leaves the dropped child out of
the pool and out of the new parent's (empty) child list. -/
theorem c6_missing_parent_no_mutation (store : Store) (s : St) (chU colU cnm : String) (col : RGBA)
    (hres : store.resolve chU = some (.calendar ⟨chU, colU, cnm, col⟩))
    (habs : pool_get s.pool colU = none) :
    ∃ s1, handle_notifier_events store s [⟨.create, chU⟩] = some s1
      ∧ s1.objects = s.objects ∧ s1.pool = s.pool ∧ s1.deltas = s.deltas
      ∧ s1.subs = s.subs ∧ s1.rootList = s.rootList
      ∧ s1.log = s.log ++ [.warn_missing_parent chU colU]
      ∧ ∀ (provU colnm : String), store.resolve colU = some (.collection ⟨colU, provU, colnm⟩) →
        ∀ (pOid : ObjId) (puri pname : String) (cols : List ObjId),
          pool_get s.pool provU = some pOid →
          s.objects[pOid]? = some (.provider puri pname cols) →
          chU ≠ colU →
          ∃ s2, handle_notifier_events store s1 [⟨.create, colU⟩] = some s2
            ∧ pool_get s2.pool chU = pool_get s.pool chU
            ∧ s2.objects[s.objects.length]? = some (.collection colU provU colnm []) := by
  unfold handle_notifier_events
  simp only [created_uris, updated_uris, deleted_uris, unknown_event_warnings,
    List.filterMap_cons, List.filterMap_nil]
  simp only [resolve_all, hres]
  simp only [create_providers, create_collections, create_calendars, create_events,
    List.foldl_cons, List.foldl_nil]
  simp only [lookup_resource, habs]
  simp only [collect_update_events, apply_update_events, delete_phase]
  refine ⟨_, rfl, rfl, rfl, rfl, rfl, rfl, by simp, ?_⟩
  intro provU colnm hres2 pOid puri pname cols hpool hobj hne
  rw [hres2]
  simp only [List.foldl_cons, List.foldl_nil, lookup_resource, hpool, hobj, Option.map_some',
    collect_update_events, apply_update_events, delete_phase]
  obtain ⟨hlt, hgs⟩ := List.getElem?_eq_some.1 hobj
  refine ⟨_, rfl, ?_, ?_⟩
  · rw [pool_get_insert_ne _ _ _ _ hne]
  · rw [List.getElem?_set_ne (by omega)]
    exact List.getElem?_concat_length _ _

/-- C6 witness: the statement evaluated against `store_orphan` from the
one-provider state `st_prov`. -/
theorem c6_witness :
    ∃ s1, handle_notifier_events store_orphan st_prov [⟨.create, "cal-C"⟩] = some s1
      ∧ s1.objects = st_prov.objects ∧ s1.pool = st_prov.pool ∧ s1.deltas = st_prov.deltas
      ∧ s1.subs = st_prov.subs ∧ s1.rootList = st_prov.rootList
      ∧ s1.log = st_prov.log ++ [.warn_missing_parent "cal-C" "coll-B"]
      ∧ ∀ (provU colnm : String),
          store_orphan.resolve "coll-B" = some (.collection ⟨"coll-B", provU, colnm⟩) →
          ∀ (pOid : ObjId) (puri pname : String) (cols : List ObjId),
            pool_get st_prov.pool provU = some pOid →
            st_prov.objects[pOid]? = some (.provider puri pname cols) →
            "cal-C" ≠ "coll-B" →
            ∃ s2, handle_notifier_events store_orphan s1 [⟨.create, "coll-B"⟩] = some s2
              ∧ pool_get s2.pool "cal-C" = pool_get st_prov.pool "cal-C"
              ∧ s2.objects[st_prov.objects.length]? =
                  some (.collection "coll-B" provU colnm []) :=
  c6_missing_parent_no_mutation store_orphan st_prov "cal-C" "coll-B" "Cal C"
    ⟨1, 2, 3, 4⟩ rfl rfl

theorem findIdx?_decide_getElem {l : List Nat} {x : Nat} {i : Nat}
    (h : l.findIdx? (fun c => c = x) = some i) : l[i]? = some x := by
  induction l generalizing i with
  | nil => simp [List.findIdx?] at h
  | cons a rest ih =>
    rw [List.findIdx?_cons] at h
    by_cases ha : a = x
    · simp only [ha, decide_True, if_true, Option.some.injEq] at h
      subst h
      simp [ha]
    · simp only [ha, decide_False, if_false] at h
      rw [List.findIdx?_succ] at h
      cases hr : rest.findIdx? (fun c => decide (c = x)) with
      | none => rw [hr] at h; simp at h
      | some j =>
        rw [hr] at h
        simp at h
        subst h
        simpa using ih hr

theorem count_eraseIdx_of_getElem {l : List Nat} {i : Nat} {x : Nat}
    (h : l[i]? = some x) : (l.eraseIdx i).count x + 1 = l.count x := by
  induction l generalizing i with
  | nil => simp at h
  | cons a rest ih =>
    cases i with
    | zero =>
      simp only [List.getElem?_cons_zero, Option.some.injEq] at h
      subst h
      simp [List.eraseIdx_cons_zero, List.count_cons]
    | succ n =>
      simp only [List.getElem?_cons_succ] at h
      rw [List.eraseIdx_cons_succ, List.count_cons, List.count_cons, ← ih h]
      omega

/-- C7: deleting a Calendar present in the pool removes it from its
parent Collection's child list through the `deleted`-signal subscription
wired by `add_calendar` (the collection recorded in `subs`, not
re-derived from the pool), removing it at its found index and emitting
exactly one delta `{position := idx, removed := 1, added := 0}` on that
collection, with the pool untouched. -/
theorem c7_delete_via_subscription (store : Store) (s : St) (uri : String)
    (calOid colOid : ObjId) (cu ccu cn : String) (ccol : Option RGBA) (evs : List ObjId)
    (u p n : String) (cals : List ObjId) (idx : Nat)
    (hpool : pool_get s.pool uri = some calOid)
    (hcal : s.objects[calOid]? = some (.calendar cu ccu cn ccol evs))
    (hsubs : s.subs.filter (fun q => q.1 = calOid) = [(calOid, colOid)])
    (hcol : s.objects[colOid]? = some (.collection u p n cals))
    (hfind : cals.findIdx? (fun c => c = calOid) = some idx)
    (hcount : cals.count calOid = 1) :
    ∃ s', handle_notifier_events store s [⟨.delete, uri⟩] = some s'
      ∧ s'.objects[colOid]? = some (.collection u p n (cals.eraseIdx idx))
      ∧ (cals.eraseIdx idx).count calOid = 0
      ∧ s'.deltas = s.deltas ++ [⟨colOid, idx, 1, 0⟩]
      ∧ s'.pool = s.pool := by
  obtain ⟨hclt, _⟩ := List.getElem?_eq_some.1 hcol
  unfold handle_notifier_events
  simp only [created_uris, updated_uris, deleted_uris, unknown_event_warnings,
    List.filterMap_cons, List.filterMap_nil]
  simp only [resolve_all, collect_update_events, apply_update_events]
  simp only [create_providers, create_collections, create_calendars, create_events,
    List.foldl_nil]
  simp only [delete_phase, lookup_resource, hpool, hcal, Option.map_some']
  simp only [emit_deleted, hsubs, run_handlers, run_delete_handler, hcol, hfind]
  refine ⟨_, rfl, ?_, ?_, ?_, ?_⟩
  · rw [List.getElem?_set]
    simp [hclt]
  · have h2 := count_eraseIdx_of_getElem (findIdx?_decide_getElem hfind)
    omega
  · rfl
  · rfl

/-- C7 witness: the statement evaluated on the concrete state `st_pair`
(one collection owning one calendar) with the batch `[Delete calU]`. -/
theorem c7_witness :
    ∃ s', handle_notifier_events store_empty st_pair [⟨.delete, calU⟩] = some s'
      ∧ s'.objects[0]? = some (.collection collU "provider-0" "Personal"
          (([1] : List ObjId).eraseIdx 0))
      ∧ (([1] : List ObjId).eraseIdx 0).count 1 = 0
      ∧ s'.deltas = st_pair.deltas ++ [⟨0, 0, 1, 0⟩]
      ∧ s'.pool = st_pair.pool :=
  c7_delete_via_subscription store_empty st_pair calU 1 0 calU collU "Home"
    (some ⟨1, 2, 3, 4⟩) [] collU "provider-0" "Personal" [1] 0
    rfl rfl (by decide) rfl (by decide) (by decide)

/-- C8: an Update for a Calendar in the pool mutates the shared object in
place (`Calendar::emit_updated` sets name and color): the pool mapping
and the object id are unchanged, only the object stored at that id has
the new name and color (its events list preserved), and every other
object — hence every other list entry holding that same id — is
untouched, so all holders observe the new values through the same
reference. -/
theorem c8_update_mutates_in_place (store : Store) (s : St) (uri : String) (oid : ObjId)
    (u cu onm : String) (ocol : Option RGBA) (evs : List ObjId)
    (puri pcu nnm : String) (ncol : RGBA)
    (hpool : pool_get s.pool uri = some oid)
    (hobj : s.objects[oid]? = some (.calendar u cu onm ocol evs))
    (hres : store.resolve uri = some (.calendar ⟨puri, pcu, nnm, ncol⟩)) :
    ∃ s', handle_notifier_events store s [⟨.update, uri⟩] = some s'
      ∧ s'.objects = s.objects.set oid (.calendar u cu nnm (some ncol) evs)
      ∧ s'.pool = s.pool
      ∧ s'.objects[oid]? = some (.calendar u cu nnm (some ncol) evs)
      ∧ ∀ j, j ≠ oid → s'.objects[j]? = s.objects[j]? := by
  obtain ⟨hlt, _⟩ := List.getElem?_eq_some.1 hobj
  unfold handle_notifier_events
  simp only [created_uris, updated_uris, deleted_uris, unknown_event_warnings,
    List.filterMap_cons, List.filterMap_nil]
  simp only [resolve_all]
  simp only [create_providers, create_collections, create_calendars, create_events,
    List.foldl_nil]
  simp only [collect_update_events, lookup_resource, hpool, hobj, hres, Option.map_some']
  simp only [apply_update_events, hobj, delete_phase]
  refine ⟨_, rfl, rfl, rfl, ?_, ?_⟩
  · rw [List.getElem?_set]
    simp [hlt]
  · intro j hj
    exact List.getElem?_set_ne (fun hc => hj hc.symm)

/-- C8 witness: the statement evaluated on `st_pair` with a store
resolving the calendar to a renamed, recolored snapshot. -/
theorem c8_witness :
    ∃ s', handle_notifier_events store_upd st_pair [⟨.update, calU⟩] = some s'
      ∧ s'.objects = st_pair.objects.set 1 (.calendar calU collU "Renamed" (some ⟨9, 9, 9, 9⟩) [])
      ∧ s'.pool = st_pair.pool
      ∧ s'.objects[1]? = some (.calendar calU collU "Renamed" (some ⟨9, 9, 9, 9⟩) [])
      ∧ ∀ j, j ≠ 1 → s'.objects[j]? = st_pair.objects[j]? :=
  c8_update_mutates_in_place store_upd st_pair calU 1 calU collU "Home"
    (some ⟨1, 2, 3, 4⟩) [] calU collU "Renamed" ⟨9, 9, 9, 9⟩ rfl rfl rfl

theorem search_loop_results (s : St) :
    ∀ (uris : List String) (acc : List ObjId × List LogMsg),
      (search_loop s uris acc).1 = acc.1 ++ uris.filterMap (resolve_event_in_pool s) := by
  intro uris
  induction uris with
  | nil => intro acc; simp [search_loop]
  | cons u rest ih =>
    intro acc
    unfold search_loop
    rw [List.filterMap_cons]
    cases hl : lookup_resource s u with
    | none =>
      simp only [resolve_event_in_pool, hl]
      rw [ih]
    | some p =>
      obtain ⟨oid, o⟩ := p
      cases o with
      | event _ _ _ _ =>
        simp only [resolve_event_in_pool, hl]
        rw [ih]
        simp
      | provider _ _ _ =>
        simp only [resolve_event_in_pool, hl]
        rw [ih]
      | collection _ _ _ _ =>
        simp only [resolve_event_in_pool, hl]
        rw [ih]
      | calendar _ _ _ _ _ =>
        simp only [resolve_event_in_pool, hl]
        rw [ih]

/-- C9: `search_events` with the empty query returns the empty outcome
without issuing any store query (`queried = false`); for a non-empty
query whose full-text lookup succeeds, it does query the store and
returns exactly the matching uris that resolve in the pool to an Event
(`filterMap` over `resolve_event_in_pool`), skipping the rest. -/
theorem c9_search_events (s : St) (fts : String → Except Unit (List String)) (query : String)
    (uris : List String) (hne : query ≠ "") (hok : fts query = .ok uris) :
    search_events s fts "" = ⟨false, [], []⟩
    ∧ (search_events s fts query).queried = true
    ∧ (search_events s fts query).results = uris.filterMap (resolve_event_in_pool s) := by
  refine ⟨rfl, ?_, ?_⟩
  · unfold search_events
    rw [if_neg hne, hok]
  · unfold search_events
    rw [if_neg hne, hok]
    simp only []
    rw [search_loop_results]
    simp

/-- C9 witness: the statement evaluated on the one-event pool `st_event`
with the query "standup", whose index returns one resolvable and one
unresolvable uri; the kept results are exactly `[0]`. -/
theorem c9_witness :
    (search_events st_event fts_hit "" = ⟨false, [], []⟩
    ∧ (search_events st_event fts_hit "standup").queried = true
    ∧ (search_events st_event fts_hit "standup").results
        = ["event-1", "event-missing"].filterMap (resolve_event_in_pool st_event))
    ∧ ["event-1", "event-missing"].filterMap (resolve_event_in_pool st_event) = [0] :=
  ⟨c9_search_events st_event fts_hit "standup" ["event-1", "event-missing"] (by decide) rfl,
   by decide⟩

/-- C10: during bootstrap, `retrieve_calendars` treats the two failure
modes differently: a row whose declared collection is absent from the
pool is skipped with a warning and the walk continues, but a row whose
collection is live and whose color string fails to parse hits the
`expect("Color should be a valid color string")` assertion and aborts
the whole load — the per-row skip policy covers only the missing parent,
not the malformed color scalar. -/
theorem c10_bootstrap_color_assertion (parse : String → Option RGBA) (s : St)
    (row row2 : CalendarQueryRow) (colOid : ObjId) (cu cp cn : String) (cals : List ObjId)
    (hcol : lookup_resource s row.collection_uri = some (colOid, .collection cu cp cn cals))
    (hbad : parse row.color = none)
    (habs : lookup_resource s row2.collection_uri = none) :
    retrieve_calendars parse s [row] = none
    ∧ retrieve_calendars parse s [row2]
        = some { s with log := s.log ++ [.warn_invalid_collection row2.uri row2.collection_uri] } := by
  constructor
  · unfold retrieve_calendars
    rw [hcol]
    simp only [hbad]
  · simp only [retrieve_calendars, habs]

/-- C10 witness: the statement evaluated on `st_pair` with the concrete
parser `parseC`, a bad-color row under the live collection and a row
pointing at an absent collection. -/
theorem c10_witness :
    retrieve_calendars parseC st_pair [row_badcolor] = none
    ∧ retrieve_calendars parseC st_pair [row_orphan]
        = some { st_pair with
            log := st_pair.log ++ [.warn_invalid_collection row_orphan.uri row_orphan.collection_uri] } :=
  c10_bootstrap_color_assertion parseC st_pair row_badcolor row_orphan 0 collU
    "provider-0" "Personal" [1] rfl rfl rfl
